import Mathlib

/-!
Verification of the tundoku-killer backend (`src/backend/main.go`, with the
earlier variant in `src/unnamed/part_000`): a book-registry HTTP service over
a Firestore collection, plus a cron-triggered deadline sweep that generates a
taunt message for each overdue book, pushes it over the LINE messaging API and
marks the record "insulted".

The Firestore collection is embedded as an association list from document id
to book record.  Timestamps (`time.Time`) are embedded as integers on a single
timeline; `IsZero` becomes `= 0` and `Before` becomes `<`.  Outbound calls
(message generation, LINE push, per-document status update) are abstracted as
oracles supplied to the sweep, mirroring the `(string, error)` / `error`
results the Go code branches on.
-/

namespace Tundoku

/-- `Book` from main.go: the record stored per document. `Deadline` is an
instant on an integer timeline ( `0` is Go's zero `time.Time`). -/
structure Book where
  title : String
  author : String
  deadline : Int
  status : String
  insultLevel : Int
  userID : String
  bookID : String
deriving DecidableEq, Repr

/-- The `books` Firestore collection: document id ↦ record. -/
abbrev Store := List (String × Book)

/-- HTTP error classes the handlers produce. -/
inductive HError where
  | badRequest
  | notFound
  | unauthorized
  | internalError
deriving DecidableEq, Repr

/-- `firestoreClient.Collection("books").Doc(id).Get`: the document with the
given id, if present (document ids are unique in the collection). -/
def lookupBook : Store → String → Option Book
  | [], _ => none
  | e :: rest, id => if e.1 = id then some e.2 else lookupBook rest id

/-- `docRef.Set(ctx, book)`: overwrite the document `id` with `b`, creating
it when absent. -/
def docSet : Store → String → Book → Store
  | [], id, b => [(id, b)]
  | e :: rest, id, b =>
    if e.1 = id then (id, b) :: rest else e :: docSet rest id b

/-- `docRef.Delete(ctx)`: remove the document with the given id. -/
def docDelete : Store → String → Store
  | [], _ => []
  | e :: rest, id => if e.1 = id then rest else e :: docDelete rest id

/-- `docRef.Update(ctx, {Path: "status", Value: v})`: overwrite only the
status field of the document with the given id. -/
def setStatus : Store → String → String → Store
  | [], _, _ => []
  | e :: rest, id, v =>
    if e.1 = id then (e.1, { e.2 with status := v }) :: rest
    else e :: setStatus rest id v

/-- `handleRegisterBook` (main.go): validate required fields, default status
to "unread", assign the fresh document id from `NewDoc` to `BookID`, persist.
`freshId` stands for the id `NewDoc` generated. Returns the new store and
either an error or the returned `bookId`. -/
def handleRegisterBook (store : Store) (req : Book) (freshId : String) :
    Store × Except HError String :=
  if req.title = "" ∨ req.author = "" ∨ req.deadline = 0 ∨ req.userID = "" then
    (store, .error .badRequest)
  else
    let book := { req with
      status := if req.status = "" then "unread" else req.status,
      bookID := freshId }
    (docSet store freshId book, .ok freshId)

/-- `handleUpdateBook` (main.go): require `bookId`/`userId`, fetch the stored
record, reject 401 when the stored owner differs, else `Set` the entire
request body over the document. -/
def handleUpdateBook (store : Store) (req : Book) : Store × Except HError Unit :=
  if req.bookID = "" ∨ req.userID = "" then
    (store, .error .badRequest)
  else
    match lookupBook store req.bookID with
    | none => (store, .error .notFound)
    | some existing =>
      if existing.userID ≠ req.userID then
        (store, .error .unauthorized)
      else
        (docSet store req.bookID req, .ok ())

/-- `handleDeleteBook` (main.go): require `bookId`/`userId`, fetch the stored
record, reject 401 when the stored owner differs, else delete the document. -/
def handleDeleteBook (store : Store) (bookID userID : String) :
    Store × Except HError Unit :=
  if bookID = "" ∨ userID = "" then
    (store, .error .badRequest)
  else
    match lookupBook store bookID with
    | none => (store, .error .notFound)
    | some existing =>
      if existing.userID ≠ userID then
        (store, .error .unauthorized)
      else
        (docDelete store bookID, .ok ())

/-- `handleCompleteBook` (main.go): require `bookId` only (no ownership
check), then `Update` the status field to "completed"; Firestore's `Update`
fails on a missing document, surfaced as a 500. -/
def handleCompleteBook (store : Store) (bookId : String) :
    Store × Except HError Unit :=
  if bookId = "" then
    (store, .error .badRequest)
  else
    match lookupBook store bookId with
    | none => (store, .error .internalError)
    | some _ => (setStatus store bookId "completed", .ok ())

/-- Outbound collaborators of the deadline sweep, abstracted as oracles:
`genMsg` is the taunt generation (`generateInsult`, `none` = error return),
`pushOk` is the LINE push (`sendLineMessage` given user id and message,
`false` = error return), `updOk` is the per-document Firestore status update
(`false` = error return, which main.go only logs). -/
structure SweepEnv where
  genMsg : Book → Option String
  pushOk : String → String → Bool
  updOk : String → Bool

/-- The status filter of the sweep's Firestore query in main.go:
`Where("status", "in", []string{"unread", "insulted"})`. -/
def sweepStatuses : List String := ["unread", "insulted"]

/-- The status filter of the sweep's query in the part_000 variant:
`Where("status", "==", "unread")`. -/
def sweepStatusesV0 : List String := ["unread"]

/-- The per-record loop body of `handleCheckDeadlines`, iterating over the
query results: for each record whose deadline is before now, bump the count,
generate the taunt (`continue` on error), push it (`continue` on error), then
update the status to "insulted" (failure only logged, record left as is). -/
def sweepLoop (env : SweepEnv) (now : Int) :
    Store → Nat → List (String × Book) → Store × Nat
  | store, count, [] => (store, count)
  | store, count, (id, book) :: rest =>
    if book.deadline < now then
      match env.genMsg book with
      | none => sweepLoop env now store (count + 1) rest
      | some msg =>
        if env.pushOk book.userID msg then
          if env.updOk id then
            sweepLoop env now (setStatus store id "insulted") (count + 1) rest
          else
            sweepLoop env now store (count + 1) rest
        else
          sweepLoop env now store (count + 1) rest
    else
      sweepLoop env now store count rest

/-- `handleCheckDeadlines`: optional shared-secret bearer check against
`CRON_SECRET`, then iterate over the records matching the status query and
process each overdue one.  `now` is the sweep-invocation instant
(`time.Now()`).  Returns the resulting store and the overdue count reported
in the response body. -/
def handleCheckDeadlines (statuses : List String) (env : SweepEnv)
    (cronSecret authHeader : String) (now : Int) (store : Store) :
    Except HError (Store × Nat) :=
  if cronSecret ≠ "" ∧ authHeader ≠ "Bearer " ++ cronSecret then
    .error .unauthorized
  else
    .ok (sweepLoop env now store 0
      (store.filter (fun e => statuses.contains e.2.status)))

/-- The prompt `generateInsult` (part_000 variant) builds for the Gemini
call from title, author and insult level. -/
def geminiPrompt (book : Book) : String :=
  "積読本「" ++ book.title ++ "」(著者: " ++ book.author ++
    ") の期限が切れました。罵倒レベル" ++ toString book.insultLevel ++
    " (最大5) で、早く読むように煽るメッセージを短く(50文字以内)作成してください。返答はメッセージ内容のみにしてください。"

/-- One candidate of the Gemini response (`Candidates[i].Content.Parts`,
keeping only each part's `Text`). -/
structure GeminiCandidate where
  parts : List String
deriving DecidableEq, Repr

/-- The decoded Gemini response body. -/
structure GeminiResponse where
  candidates : List GeminiCandidate
deriving DecidableEq, Repr

/-- The fixed fallback taunt of the part_000 `generateInsult`. -/
def geminiFallback : String := "早く読みなさい！(Geminiからの応答なし)"

/-- `generateInsult` (part_000 variant): error when the API key is unset;
issue the HTTP call with the built prompt (`call` abstracts `http.Post`, the
non-200 status check and the body decode, an `.error` covering all three
failure ways); on a decoded response use the first part of the first
candidate when both exist, else the fixed fallback. -/
def generateInsultGemini (apiKey : String)
    (call : String → Except String GeminiResponse) (book : Book) :
    Except String String :=
  if apiKey = "" then
    .error "GEMINI_API_KEY is not set"
  else
    match call (geminiPrompt book) with
    | .error e => .error e
    | .ok result =>
      match result.candidates with
      | [] => .ok geminiFallback
      | c :: _ =>
        match c.parts with
        | [] => .ok geminiFallback
        | t :: _ => .ok t

/-- The literal taunt pool of `generateInsult` in main.go (six entries
interpolate the book title via `fmt.Sprintf`). -/
def insultMessages (book : Book) : List String :=
  [
    "その本、まだ読んでないんですか？時間の無駄ですね。",
    "積読ですか。残念ですね。その本は二度と読まれないでしょう。",
    "買った時の記憶も薄れていくでしょうね。それがあなたの本の末路です。",
    "知識は鮮度が命。その本はもう腐っています。",
    "あなたの読書計画、破綻していますね。",
    "「" ++ book.title ++ "」を読むというタスクは、あなたの優先順位リストに存在しないようですね。",
    "無駄な購入でしたね。次からは計画的にどうぞ。",
    "その本は、あなたの怠惰を象徴しています。",
    "期待外れです。次に期待しましょう。",
    "結局、読まない本でしたか。",
    "本棚の肥やしにするために働いてるの？ 貴族か何かですか？",
    "「いつか読む」という言葉、あなたの辞書では「一生読まない」と同じ意味ですよね。",
    "その本の著者が知ったら、絶望して筆を折るレベルの放置っぷりですね。",
    "ページを開く筋肉すら衰えたんですか？ リハビリに1ページどうです？",
    "知識の貯金をしてるつもり？ 複利じゃなくて腐敗が進んでますよ。",
    "本を買うことで満足するタイプですか。安上がりな達成感ですね。",
    "その本、メルカリに出したほうが必要な人の元へ届くし、本も幸せですよ。",
    "次に新しい本を買う前に、その可哀想な既刊を供養してあげたらどうです？",
    "「" ++ book.title ++ "」が放つ『読んでくれオーラ』。鈍感なあなたには届かないようですね。",
    "積読は病だと言いますが、あなたはもう手遅れのステージに入っています。",
    "読まない本に囲まれて眠る気分はどうですか？ 知識の亡霊にうなされそうですが。",
    "本の背表紙が寂しそうですよ。たまには視線を合わせてあげたら？",
    "読了できない言い訳を考える時間があるなら、目次くらい読めるでしょうに。",
    "あなたの本棚、もはや墓場ですね。未完の志が眠る場所。",
    "積むのは本じゃなくて、あなたの読書能力にすべきでしたね。",
    "本を買うエネルギーを、読むエネルギーに1%%でも回せませんか？",
    "素晴らしい！ 本の劣化具合を観察する研究でもしてるんですか？",
    "その一冊を無視し続ける胆力、別のことに活かせば成功したでしょうね。",
    "「" ++ book.title ++ "」は、あなたが賢くなるのをずっと、ずっと、無駄に待っていますよ。",
    "本を買うお金があるなら、その怠惰を治す薬でも買えばよかったのに。",
    "読みもしない本に場所代を払うなんて、あなたは本棚の大家さんですか？",
    "そろそろ、その本にカビが生えるか、あなたの脳にカビが生えるかの勝負ですね。",
    "文字を追うのがそれほど苦痛なら、いっそ絵本からやり直しますか？",
    "その本、もうあなたの記憶からは消去されてるんでしょうね。物理的にあるだけで。",
    "読書家を自称してるなら、死ぬ気でその一冊を終わらせるべきじゃないですか？",
    "あなたの「忙しい」は、本にとって「お前はどうでもいい」という死刑宣告ですよ。",
    "本棚が重みに耐えかねています。あなたの怠慢の重みに、ですよ。",
    "未読のまま古びていく本。まるであなたの知性の成長が止まったかのようですね。",
    "ページをめくる心地よさ。あ、忘れてしまったんでしたっけ？",
    "その本の内容、SNSで誰かが要約してくれるのを待ってるんですか？ 浅ましいですね。",
    "紙の無駄。インクの無駄。そして、あなたの時間の無駄。",
    "もしかして、枕として使ってるんですか？ 知識が染み込むといいですね（笑）",
    "その本、あなたの何倍も賢い内容が詰まってるのに、宝の持ち腐れですね。",
    "読まない権利を行使中ですか？ 憲法にでも書いてありましたっけ？",
    "「読みたい」という言葉は、実行が伴って初めて意味を成すんですよ。ご存知？",
    "「" ++ book.title ++ "」の続き、気にならないんですか？ あなたの人生と同じで、停滞していますね。",
    "本は読まれるために生まれてきたんです。あなたの見栄のためにあるんじゃない。",
    "読まない本を積み上げるのは、読書ではなく単なる『物流』ですよ。",
    "あなたの怠慢は、出版業界に対する静かなテロリズムですね。",
    "その本、あと10年経っても同じ場所にありそうですね。化石かな？",
    "知的な刺激に飢えていると言いつつ、目の前の御馳走を放置する。矛盾の塊ですね。",
    "ページを開く。たったそれだけのことが、今のあなたにはエベレスト登頂並みに困難なようで。",
    "本を買った自分を褒めて終わりですか？ 達成感のコストパフォーマンス、良すぎません？",
    "その本の存在を忘れていた自分を、まずは恥じるべきではないでしょうか。",
    "あなたが読まない間に、世界はその本から知識を得て、あなたを追い抜いていきますよ。",
    "本は友達？ ならば、あなたは友人を放置して放置して、見捨てている加害者ですね。",
    "読書、義務じゃないけど、教養は義務ですよ。その本はその欠片だったはず。捨てたんですか？",
    "本の死は、読まれなくなること。あなたは今、一冊の本を殺そうとしています。",
    "積読を肯定する文化に逃げないでください。あなたはただ読まないだけです。",
    "「" ++ book.title ++ "」の背表紙の色褪せ。あなたの情熱の色褪せそのものですね。",
    "買って満足、積んで満足。読書家ごっこ、楽しそうで何よりです。",
    "その本を一気に読める集中力、どこかに落としてきたんですか？",
    "読まない理由を100個並べるより、1ページめくるほうが生産的ですよ。",
    "本棚の容量にも限界があるように、あなたの怠慢を受け入れられる器にも限界があります。",
    "明日から読む？ その『明日』は、365回くらい通り過ぎましたよね？",
    "本を読むことは呼吸と同じだと言った人がいますが、あなたは窒息死寸前ですね。",
    "その本を手に取る勇気。今のあなたには、何よりも欠けているもののようです。",
    "知識の倉庫番。それがあなたの現在の職業ですか？ 給料、出ませんよ。",
    "本がかわいそうです。せめて、他の方に譲るという慈悲の心は持てないのですか？",
    "積み上げられた本は、あなたの怠けた日々のチェックポイントですね。",
    "本を読まない理由が「時間がない」？ そのスマホを触る指をページに置けと言ってるんです。",
    "あなたの本棚、湿度高そうですね。未読本の涙で。",
    "その一冊、読み終えたら新しい世界が見えるかもしれないのに。一生盲目のままですか？",
    "本を買うことで自分をアップデートした気にならないでください。中身は空っぽのままですよ。",
    "その本、最後に触ったのいつですか？ 埃が厚化粧のように積もっていますよ。",
    "他人の書評で読んだ気になっていませんか？ 自分の頭で考えない読書家（笑）ですね。",
    "本の価値を紙の重さだと思っていませんか？ 中にある『言葉』を殺さないでください。",
    "「" ++ book.title ++ "」というタイトル、今のあなたの心には全く響いていないようですね。",
    "積読を『楽しみ』だと強弁する。負け惜しみの定義として辞典に載せたいくらいです。",
    "あなたの読書スピード、亀より遅い…あ、そもそも動いてすらいませんでしたね。",
    "文字を読むことが、それほどまでにあなたの高いプライドに障りますか？",
    "本は鏡です。あなたの今の怠惰な姿を、その未読のページが映し出していますよ。",
    "いつか役に立つ？ その『いつか』が来たとき、あなたは内容を全く知らないことに絶望するでしょう。",
    "その本が可哀想で見ていられません。私が代わりに読んであげましょうか？ （冗談です、あなたの本ですから）",
    "教養の壁を積み上げているつもりでしょうが、それは単なる『無知の檻』です。",
    "読書を後回しにする。つまり、自分自身の成長を後回しにしているということです。",
    "その本、もし喋れたら、あなたに一番に何を言うでしょうね？ 『さよなら』かな？",
    "本の山を眺めて知的な気分に浸る。コスプレとしては安上がりで良いですね。",
    "一冊すら完結できない人間が、人生のチャプターをどう進めるつもりですか？",
    "積読は未来への投資？ 投資なら運用しないとただの『死に金』ですよ。",
    "その本を開く。そんな簡単なことができないあなたに、何ができるというのですか？",
    "もう、その本をメルカリの梱包材にでも使ったらどうです？ 最後の仕事として。",
    "あなたが眠っている間も、その本は「読まれたい」と叫び続けていますよ。聞こえませんか？",
    "結局、あなたは本が好きなのではなく、『本を持っている自分が好き』なだけですね。"
  ]

/-- `generateInsult` (main.go variant): pick one message of the pool at
index `rand.Intn(len(insultMessages))`; `r` stands for the drawn random
value, reduced into range as the uniform draw guarantees.  Never returns an
error. -/
def generateInsult (r : Nat) (book : Book) : Except String String :=
  let msgs := insultMessages book
  .ok (msgs.getD (r % msgs.length) "")

/-- How the sweep in main.go consumes `generateInsult` as its `genMsg`
oracle: an error return would be the `none` (skip) branch. -/
def staticGenMsg (r : Nat) : Book → Option String := fun book =>
  match generateInsult r book with
  | .ok msg => some msg
  | .error _ => none

/-- Whether the sweep's processing of record `(id, b)` reaches the status
update and it succeeds: generation produced a message, the push succeeded and
the Firestore update succeeded.  Derived from the branch structure of the
loop body. -/
def insultSuccess (env : SweepEnv) (id : String) (b : Book) : Bool :=
  match env.genMsg b with
  | none => false
  | some msg => env.pushOk b.userID msg && env.updOk id

/-- The status enumeration of the spec's data model (§3). -/
def statusEnum : List String := ["unread", "reading", "insulted", "completed"]

/-- The spec's data-model invariant on a stored record (§3): status in the
enumeration, insult level between 1 and 5. -/
def bookWF (b : Book) : Prop :=
  b.status ∈ statusEnum ∧ 1 ≤ b.insultLevel ∧ b.insultLevel ≤ 5

instance (b : Book) : Decidable (bookWF b) := by
  unfold bookWF
  infer_instance

/-- Sample record used by concrete witnesses. -/
def wBook : Book :=
  { title := "Dune", author := "Herbert", deadline := 100, status := "unread",
    insultLevel := 3, userID := "u1", bookID := "b1" }

/-- Sample one-record store used by concrete witnesses. -/
def wStore : Store := [("b1", wBook)]

/-- Oracle set where every outbound call fails. -/
def demoEnvFail : SweepEnv :=
  { genMsg := fun _ => none, pushOk := fun _ _ => false, updOk := fun _ => false }

/-- Oracle set where every outbound call succeeds. -/
def demoEnvOk : SweepEnv :=
  { genMsg := fun b => some b.title, pushOk := fun _ _ => true, updOk := fun _ => true }

/-- Create request with an out-of-range insult level (0) and absent status. -/
def c7Req : Book :=
  { title := "t", author := "a", deadline := 1, status := "",
    insultLevel := 0, userID := "u", bookID := "" }

/-- Update/delete request whose caller-supplied owner differs from the
stored owner of `wBook`. -/
def c2BadReq : Book := { wBook with userID := "u2" }

/-- Create request with an empty title. -/
def c4BadReq : Book :=
  { title := "", author := "a", deadline := 5, status := "",
    insultLevel := 2, userID := "u", bookID := "" }

/-- A Gemini call that fails (transport error / non-200 / decode error). -/
def geminiFailCall : String → Except String GeminiResponse :=
  fun _ => .error "Gemini API error: 500"

/-- A Gemini call returning one candidate with one part. -/
def geminiOkCall : String → Except String GeminiResponse :=
  fun _ => .ok { candidates := [{ parts := ["さっさと読みなさい。"] }] }

/-- A Gemini call returning a response with no candidates. -/
def geminiEmptyCall : String → Except String GeminiResponse :=
  fun _ => .ok { candidates := [] }

/-! ### Store lemmas -/

theorem lookupBook_setStatus_self (s : Store) (id v : String) :
    lookupBook (setStatus s id v) id =
      (lookupBook s id).map (fun b => { b with status := v }) := by
  induction s with
  | nil => rfl
  | cons e rest ih =>
    by_cases h : e.1 = id
    · simp [setStatus, lookupBook, h]
    · simp [setStatus, lookupBook, h, ih]

theorem lookupBook_setStatus_ne (s : Store) (j id v : String) (h : j ≠ id) :
    lookupBook (setStatus s j v) id = lookupBook s id := by
  induction s with
  | nil => rfl
  | cons e rest ih =>
    by_cases he : e.1 = j
    · have hne : ¬ e.1 = id := by rw [he]; exact h
      rw [setStatus, if_pos he, lookupBook, if_neg hne, lookupBook, if_neg hne]
    · rw [setStatus, if_neg he, lookupBook, lookupBook]
      by_cases hi : e.1 = id
      · rw [if_pos hi, if_pos hi]
      · rw [if_neg hi, if_neg hi, ih]

theorem mem_of_lookupBook (s : Store) (id : String) (b : Book)
    (h : lookupBook s id = some b) : (id, b) ∈ s := by
  induction s with
  | nil => simp [lookupBook] at h
  | cons e rest ih =>
    by_cases he : e.1 = id
    · rw [lookupBook, if_pos he] at h
      have hb : e.2 = b := by injection h
      have : (id, b) = e := by
        cases e
        simp only at he hb
        rw [he, hb]
      rw [this]
      exact List.mem_cons_self _ _
    · rw [lookupBook, if_neg he] at h
      exact List.mem_cons_of_mem _ (ih h)

theorem lookupBook_unique (s : Store) (hnd : (s.map Prod.fst).Nodup)
    (id : String) (b b' : Book) (hmem : (id, b') ∈ s)
    (hl : lookupBook s id = some b) : b' = b := by
  induction s with
  | nil => simp at hmem
  | cons e rest ih =>
    simp only [List.map_cons, List.nodup_cons] at hnd
    by_cases he : e.1 = id
    · rw [lookupBook, if_pos he] at hl
      have hb : e.2 = b := by injection hl
      rcases List.mem_cons.mp hmem with hh | ht
      · have : b' = e.2 := by rw [← hh]
        rw [this, hb]
      · exfalso
        apply hnd.1
        rw [he]
        exact List.mem_map.mpr ⟨(id, b'), ht, rfl⟩
    · rw [lookupBook, if_neg he] at hl
      rcases List.mem_cons.mp hmem with hh | ht
      · exfalso
        apply he
        rw [← hh]
      · exact ih hnd.2 ht hl

theorem lookupBook_docSet_self (s : Store) (id : String) (b : Book) :
    lookupBook (docSet s id b) id = some b := by
  induction s with
  | nil => simp [docSet, lookupBook]
  | cons e rest ih =>
    by_cases he : e.1 = id
    · simp [docSet, lookupBook, he]
    · simp [docSet, lookupBook, he, ih]

theorem mem_docSet (s : Store) (id : String) (b : Book) (e : String × Book)
    (he : e ∈ docSet s id b) : e ∈ s ∨ e = (id, b) := by
  induction s with
  | nil =>
    simp only [docSet, List.mem_singleton] at he
    right
    exact he
  | cons x rest ih =>
    rw [docSet] at he
    split at he
    · rcases List.mem_cons.mp he with h1 | h2
      · right; exact h1
      · left; exact List.mem_cons_of_mem _ h2
    · rcases List.mem_cons.mp he with h1 | h2
      · left; rw [h1]; exact List.mem_cons_self _ _
      · rcases ih h2 with h3 | h4
        · left; exact List.mem_cons_of_mem _ h3
        · right; exact h4

theorem lookupBook_eq_none (s : Store) (id : String)
    (h : id ∉ s.map Prod.fst) : lookupBook s id = none := by
  induction s with
  | nil => rfl
  | cons e rest ih =>
    simp only [List.map_cons, List.mem_cons] at h
    push_neg at h
    rw [lookupBook, if_neg (fun hh => h.1 hh.symm)]
    exact ih h.2

theorem lookupBook_docDelete_self (s : Store) (hnd : (s.map Prod.fst).Nodup)
    (id : String) : lookupBook (docDelete s id) id = none := by
  induction s with
  | nil => rfl
  | cons e rest ih =>
    simp only [List.map_cons, List.nodup_cons] at hnd
    by_cases he : e.1 = id
    · rw [docDelete, if_pos he]
      exact lookupBook_eq_none rest id (he ▸ hnd.1)
    · rw [docDelete, if_neg he, lookupBook, if_neg he]
      exact ih hnd.2

/-! ### Sweep-loop lemmas -/

theorem setStatus_mark_idem (o : Option Book) :
    (o.map (fun b => { b with status := "insulted" })).map
        (fun b => { b with status := "insulted" }) =
      o.map (fun b => { b with status := "insulted" }) := by
  cases o <;> rfl

theorem sweepLoop_count (env : SweepEnv) (now : Int) :
    ∀ (l : List (String × Book)) (store : Store) (count : Nat),
      (sweepLoop env now store count l).2 =
        count + l.countP (fun e => decide (e.2.deadline < now)) := by
  intro l
  induction l with
  | nil => intro store count; simp [sweepLoop]
  | cons e rest ih =>
    intro store count
    obtain ⟨j, b⟩ := e
    rw [sweepLoop]
    by_cases hd : b.deadline < now
    · rw [if_pos hd]
      have hcnt : ((j, b) :: rest).countP (fun e => decide (e.2.deadline < now)) =
          rest.countP (fun e => decide (e.2.deadline < now)) + 1 := by
        simp [List.countP_cons, hd]
      cases hg : env.genMsg b with
      | none =>
        rw [ih, hcnt]
        omega
      | some msg =>
        dsimp only
        cases hp : env.pushOk b.userID msg with
        | false =>
          rw [if_neg Bool.false_ne_true]
          rw [ih, hcnt]
          omega
        | true =>
          rw [if_pos rfl]
          cases hu : env.updOk j with
          | false =>
            rw [if_neg Bool.false_ne_true]
            rw [ih, hcnt]
            omega
          | true =>
            rw [if_pos rfl]
            rw [ih, hcnt]
            omega
    · rw [if_neg hd]
      rw [ih]
      simp [List.countP_cons, hd]

theorem sweepLoop_lookup (env : SweepEnv) (now : Int) (id : String) :
    ∀ (l : List (String × Book)) (store : Store) (count : Nat),
      lookupBook (sweepLoop env now store count l).1 id =
        if l.any (fun e => e.1 == id && decide (e.2.deadline < now) &&
            insultSuccess env e.1 e.2)
        then (lookupBook store id).map (fun b => { b with status := "insulted" })
        else lookupBook store id := by
  intro l
  induction l with
  | nil => intro store count; simp [sweepLoop]
  | cons e rest ih =>
    intro store count
    obtain ⟨j, b⟩ := e
    rw [sweepLoop]
    by_cases hd : b.deadline < now
    · rw [if_pos hd]
      cases hg : env.genMsg b with
      | none =>
        have hs : insultSuccess env j b = false := by simp [insultSuccess, hg]
        rw [ih, List.any_cons, hs, Bool.and_false, Bool.false_or]
      | some msg =>
        dsimp only
        cases hp : env.pushOk b.userID msg with
        | false =>
          have hs : insultSuccess env j b = false := by
            simp [insultSuccess, hg, hp]
          rw [if_neg Bool.false_ne_true]
          rw [ih, List.any_cons, hs, Bool.and_false, Bool.false_or]
        | true =>
          rw [if_pos rfl]
          cases hu : env.updOk j with
          | false =>
            have hs : insultSuccess env j b = false := by
              simp [insultSuccess, hg, hp, hu]
            rw [if_neg Bool.false_ne_true]
            rw [ih, List.any_cons, hs, Bool.and_false, Bool.false_or]
          | true =>
            have hs : insultSuccess env j b = true := by
              simp [insultSuccess, hg, hp, hu]
            rw [if_pos rfl]
            rw [ih]
            have hdb : decide (b.deadline < now) = true := decide_eq_true hd
            by_cases hj : j = id
            · subst hj
              rw [lookupBook_setStatus_self, List.any_cons, hs, Bool.and_true,
                hdb, Bool.and_true, beq_self_eq_true, Bool.true_or, if_pos rfl]
              split
              · exact setStatus_mark_idem _
              · rfl
            · have hb : (j == id) = false := beq_eq_false_iff_ne.mpr hj
              rw [lookupBook_setStatus_ne store j id "insulted" hj, List.any_cons,
                hb, Bool.false_and, Bool.false_and, Bool.false_or]
    · rw [if_neg hd]
      have hdb : decide (b.deadline < now) = false :=
        decide_eq_false hd
      rw [ih, List.any_cons, hdb, Bool.and_false, Bool.false_and, Bool.false_or]

/-- An `.ok` result of the sweep handler comes from the per-record loop over
the status-filtered records. -/
theorem handleCheckDeadlines_ok (statuses : List String) (env : SweepEnv)
    (cronSecret authHeader : String) (now : Int) (store store' : Store)
    (n : Nat)
    (hrun : handleCheckDeadlines statuses env cronSecret authHeader now store =
      .ok (store', n)) :
    sweepLoop env now store 0
      (store.filter (fun e => statuses.contains e.2.status)) = (store', n) := by
  unfold handleCheckDeadlines at hrun
  split at hrun
  · exact absurd hrun (by simp)
  · exact Except.ok.inj hrun

/-- If the record stored under `id` is not in the status filter or its
processing fails before the status update, then no filtered record with key
`id` passes the whole per-record success test. -/
theorem sweep_any_false_of (store : Store) (statuses : List String)
    (env : SweepEnv) (now : Int) (id : String) (c : Book)
    (hnd : (store.map Prod.fst).Nodup)
    (hl : lookupBook store id = some c)
    (hfail : statuses.contains c.status = false ∨
      insultSuccess env id c = false) :
    (store.filter (fun e => statuses.contains e.2.status)).any
      (fun e => e.1 == id && decide (e.2.deadline < now) &&
        insultSuccess env e.1 e.2) = false := by
  cases hb : (store.filter (fun e => statuses.contains e.2.status)).any
      (fun e => e.1 == id && decide (e.2.deadline < now) &&
        insultSuccess env e.1 e.2) with
  | false => rfl
  | true =>
    exfalso
    obtain ⟨e, hef, hpe⟩ := List.any_eq_true.mp hb
    obtain ⟨k, bk⟩ := e
    obtain ⟨hes, hco⟩ := List.mem_filter.mp hef
    simp only [Bool.and_eq_true, beq_iff_eq] at hpe
    obtain ⟨⟨hk, hdk⟩, hins⟩ := hpe
    subst hk
    have hbc : bk = c := lookupBook_unique store hnd k c bk hes hl
    subst hbc
    have hco2 : statuses.contains bk.status = true := hco
    have hins2 : insultSuccess env k bk = true := hins
    rcases hfail with hf | hf
    · rw [hf] at hco2
      exact Bool.false_ne_true hco2
    · rw [hf] at hins2
      exact Bool.false_ne_true hins2

/-! ### Claim theorems -/

/-- C9: the sweep endpoint answers with an unauthorized error exactly when a
shared secret is configured and the Authorization header is not
"Bearer " followed by that secret; with no secret configured every request is
accepted (and the sweep runs) without any authorization check. -/
theorem sweep_auth_gate (statuses : List String) (env : SweepEnv)
    (cronSecret authHeader : String) (now : Int) (store : Store) :
    (handleCheckDeadlines statuses env cronSecret authHeader now store =
        .error .unauthorized ↔
      (cronSecret ≠ "" ∧ authHeader ≠ "Bearer " ++ cronSecret)) ∧
    (cronSecret = "" →
      handleCheckDeadlines statuses env cronSecret authHeader now store =
        .ok (sweepLoop env now store 0
          (store.filter (fun e => statuses.contains e.2.status)))) := by
  constructor
  · constructor
    · intro h
      by_contra hc
      unfold handleCheckDeadlines at h
      rw [if_neg hc] at h
      exact absurd h (by simp)
    · intro hc
      unfold handleCheckDeadlines
      rw [if_pos hc]
  · intro hc
    unfold handleCheckDeadlines
    rw [if_neg (fun hargs => hargs.1 hc)]

/-- C9 witness: with secret "s3cret" and a wrong header the request is
rejected as unauthorized; with no secret configured the same wrong header is
accepted. -/
theorem sweep_auth_gate_witness :
    handleCheckDeadlines sweepStatuses demoEnvFail "s3cret" "Bearer wrong" 0 [] =
      .error .unauthorized ∧
    handleCheckDeadlines sweepStatuses demoEnvFail "" "Bearer wrong" 0 [] =
      .ok ([], 0) := by
  constructor
  · exact (sweep_auth_gate sweepStatuses demoEnvFail "s3cret" "Bearer wrong"
      0 []).1.mpr ⟨by decide, by decide⟩
  · have h := (sweep_auth_gate sweepStatuses demoEnvFail "" "Bearer wrong"
      0 []).2 rfl
    rw [h]
    rfl

/-- C4: a create request with an empty title, author or owner id, or a zero
deadline, is rejected with a client error and the store is unchanged;
otherwise the request is persisted under the fresh document id with status
defaulted to "unread" when absent, and that id is returned. -/
theorem register_validates_and_persists (store : Store) (req : Book)
    (freshId : String) :
    ((req.title = "" ∨ req.author = "" ∨ req.deadline = 0 ∨ req.userID = "") →
      handleRegisterBook store req freshId = (store, .error .badRequest)) ∧
    (req.title ≠ "" → req.author ≠ "" → req.deadline ≠ 0 → req.userID ≠ "" →
      (handleRegisterBook store req freshId).2 = .ok freshId ∧
      lookupBook (handleRegisterBook store req freshId).1 freshId =
        some { req with
          status := if req.status = "" then "unread" else req.status,
          bookID := freshId }) := by
  constructor
  · intro h
    unfold handleRegisterBook
    rw [if_pos h]
  · intro h1 h2 h3 h4
    unfold handleRegisterBook
    rw [if_neg (by push_neg; exact ⟨h1, h2, h3, h4⟩)]
    exact ⟨rfl, lookupBook_docSet_self _ _ _⟩

/-- C4 witness: the empty-title request is rejected and persists nothing;
the well-formed request is stored under "id9" and "id9" is returned. -/
theorem register_witness :
    handleRegisterBook [] c4BadReq "id9" = ([], .error .badRequest) ∧
    (handleRegisterBook [] wBook "id9").2 = .ok "id9" ∧
    lookupBook (handleRegisterBook [] wBook "id9").1 "id9" =
      some { wBook with status := "unread", bookID := "id9" } := by
  refine ⟨?_, ?_⟩
  · exact (register_validates_and_persists [] c4BadReq "id9").1 (Or.inl rfl)
  · exact (register_validates_and_persists [] wBook "id9").2
      (by decide) (by decide) (by decide) (by decide)

/-- C2: an update or delete whose caller-supplied owner differs from the
stored owner is rejected as unauthorized with the store unchanged; when the
owners match, update overwrites the whole record with the request body and
delete removes the record. -/
theorem ownership_guard (store : Store) (req : Book) (existing : Book)
    (hb : req.bookID ≠ "") (hu : req.userID ≠ "")
    (hl : lookupBook store req.bookID = some existing) :
    (existing.userID ≠ req.userID →
      handleUpdateBook store req = (store, .error .unauthorized) ∧
      handleDeleteBook store req.bookID req.userID =
        (store, .error .unauthorized)) ∧
    (existing.userID = req.userID →
      handleUpdateBook store req = (docSet store req.bookID req, .ok ()) ∧
      lookupBook (handleUpdateBook store req).1 req.bookID = some req ∧
      handleDeleteBook store req.bookID req.userID =
        (docDelete store req.bookID, .ok ()) ∧
      ((store.map Prod.fst).Nodup →
        lookupBook (handleDeleteBook store req.bookID req.userID).1
          req.bookID = none)) := by
  have hreq : ¬ (req.bookID = "" ∨ req.userID = "") := by
    push_neg
    exact ⟨hb, hu⟩
  constructor
  · intro hne
    constructor
    · unfold handleUpdateBook
      rw [if_neg hreq, hl]
      dsimp only
      rw [if_pos hne]
    · unfold handleDeleteBook
      rw [if_neg hreq, hl]
      dsimp only
      rw [if_pos hne]
  · intro heq
    have hupd : handleUpdateBook store req =
        (docSet store req.bookID req, .ok ()) := by
      unfold handleUpdateBook
      rw [if_neg hreq, hl]
      dsimp only
      rw [if_neg (not_not_intro heq)]
    have hdel : handleDeleteBook store req.bookID req.userID =
        (docDelete store req.bookID, .ok ()) := by
      unfold handleDeleteBook
      rw [if_neg hreq, hl]
      dsimp only
      rw [if_neg (not_not_intro heq)]
    refine ⟨hupd, ?_, hdel, ?_⟩
    · rw [hupd]
      exact lookupBook_docSet_self _ _ _
    · intro hnd
      rw [hdel]
      exact lookupBook_docDelete_self store hnd req.bookID

/-- C2 witness: on the one-record store owned by "u1", caller "u2" is
rejected by update and delete with the store unchanged; owner "u1" overwrites
via update and removes via delete. -/
theorem ownership_guard_witness :
    handleUpdateBook wStore c2BadReq = (wStore, .error .unauthorized) ∧
    handleDeleteBook wStore "b1" "u2" = (wStore, .error .unauthorized) ∧
    handleUpdateBook wStore wBook = (docSet wStore "b1" wBook, .ok ()) ∧
    lookupBook (handleDeleteBook wStore "b1" "u1").1 "b1" = none := by
  have hbad := (ownership_guard wStore c2BadReq wBook (by decide) (by decide)
    rfl).1 (by decide)
  have hgood := (ownership_guard wStore wBook wBook (by decide) (by decide)
    rfl).2 rfl
  exact ⟨hbad.1, hbad.2, hgood.1, hgood.2.2.2 (by decide)⟩

/-- C3: completing a record requires only its id (no ownership check) and
sets only its status to "completed"; a record whose status is "completed"
does not match any sweep status filter that excludes "completed" (both
observed variants do), so it is neither selected nor touched by the sweep. -/
theorem complete_never_swept (store : Store) (bookId : String) (b : Book)
    (hid : bookId ≠ "") (hl : lookupBook store bookId = some b) :
    handleCompleteBook store bookId =
      (setStatus store bookId "completed", .ok ()) ∧
    lookupBook (handleCompleteBook store bookId).1 bookId =
      some { b with status := "completed" } ∧
    (∀ (statuses : List String) (env : SweepEnv)
       (cronSecret authHeader : String) (now : Int) (store₂ store₃ : Store)
       (n : Nat) (id : String) (c : Book),
       statuses.contains "completed" = false →
       (store₂.map Prod.fst).Nodup →
       lookupBook store₂ id = some c → c.status = "completed" →
       handleCheckDeadlines statuses env cronSecret authHeader now store₂ =
         .ok (store₃, n) →
       (id, c) ∉ store₂.filter (fun e => statuses.contains e.2.status) ∧
       lookupBook store₃ id = some c) := by
  have hcomp : handleCompleteBook store bookId =
      (setStatus store bookId "completed", .ok ()) := by
    unfold handleCompleteBook
    rw [if_neg hid, hl]
  refine ⟨hcomp, ?_, ?_⟩
  · rw [hcomp]
    dsimp only
    rw [lookupBook_setStatus_self, hl]
    rfl
  · intro statuses env cronSecret authHeader now store₂ store₃ n id c
      hstat hnd hlc hst hrun
    have hok := handleCheckDeadlines_ok statuses env cronSecret authHeader
      now store₂ store₃ n hrun
    have hcs : statuses.contains c.status = false := by
      rw [hst]
      exact hstat
    constructor
    · intro hmem
      have hco : statuses.contains c.status = true :=
        (List.mem_filter.mp hmem).2
      rw [hcs] at hco
      exact Bool.false_ne_true hco
    · have hany := sweep_any_false_of store₂ statuses env now id c hnd hlc
        (Or.inl hcs)
      have hlk := sweepLoop_lookup env now id
        (store₂.filter (fun e => statuses.contains e.2.status)) store₂ 0
      rw [hany] at hlk
      rw [if_neg Bool.false_ne_true] at hlk
      have hst3 : store₃ = (sweepLoop env now store₂ 0
          (store₂.filter (fun e => statuses.contains e.2.status))).1 := by
        rw [hok]
      rw [hst3, hlk, hlc]

/-- C3 witness: completing "b1" on the one-record store marks it
"completed" while keeping the other fields. -/
theorem complete_never_swept_witness :
    handleCompleteBook wStore "b1" =
      (setStatus wStore "b1" "completed", .ok ()) ∧
    lookupBook (handleCompleteBook wStore "b1").1 "b1" =
      some { wBook with status := "completed" } := by
  have h := complete_never_swept wStore "b1" wBook (by decide) rfl
  exact ⟨h.1, h.2.1⟩


/-- C1: for every sweep run, the reported count is exactly the number of
status-filtered records whose stored deadline is strictly before the sweep
instant — independent of whether generation, push or the status update
succeeded (the count formula mentions no oracle, and any two oracle sets
give the same count) — and a record's status becomes "insulted" only if
generation produced a message for it and the push of that message
succeeded. -/
theorem sweep_overdue_report (statuses : List String) (env : SweepEnv)
    (cronSecret authHeader : String) (now : Int) (store store' : Store)
    (n : Nat)
    (hnd : (store.map Prod.fst).Nodup)
    (hrun : handleCheckDeadlines statuses env cronSecret authHeader now store =
      .ok (store', n)) :
    n = store.countP (fun e => decide (e.2.deadline < now) &&
      statuses.contains e.2.status) ∧
    (∀ (env' : SweepEnv) (store'' : Store) (n' : Nat),
      handleCheckDeadlines statuses env' cronSecret authHeader now store =
        .ok (store'', n') → n' = n) ∧
    (∀ (id : String) (b b' : Book),
      lookupBook store id = some b → lookupBook store' id = some b' →
      b'.status = "insulted" → b.status ≠ "insulted" →
      ∃ msg, env.genMsg b = some msg ∧ env.pushOk b.userID msg = true) := by
  have hok := handleCheckDeadlines_ok statuses env cronSecret authHeader
    now store store' n hrun
  have hcount : n = store.countP (fun e => decide (e.2.deadline < now) &&
      statuses.contains e.2.status) := by
    have h2 : n = (sweepLoop env now store 0
        (store.filter (fun e => statuses.contains e.2.status))).2 := by
      rw [hok]
    rw [h2, sweepLoop_count, List.countP_filter, Nat.zero_add]
  refine ⟨hcount, ?_, ?_⟩
  · intro env' store'' n' hrun'
    have hok' := handleCheckDeadlines_ok statuses env' cronSecret authHeader
      now store store'' n' hrun'
    have h2 : n' = (sweepLoop env' now store 0
        (store.filter (fun e => statuses.contains e.2.status))).2 := by
      rw [hok']
    rw [h2, sweepLoop_count, List.countP_filter, Nat.zero_add, hcount]
  · intro id b b' hlb hlb' hins hnotins
    have hst : store' = (sweepLoop env now store 0
        (store.filter (fun e => statuses.contains e.2.status))).1 := by
      rw [hok]
    have hlk := sweepLoop_lookup env now id
      (store.filter (fun e => statuses.contains e.2.status)) store 0
    rw [← hst] at hlk
    cases hany : (store.filter (fun e => statuses.contains e.2.status)).any
        (fun e => e.1 == id && decide (e.2.deadline < now) &&
          insultSuccess env e.1 e.2) with
    | false =>
      exfalso
      rw [hany, if_neg Bool.false_ne_true] at hlk
      rw [hlk, hlb] at hlb'
      have hbb : b = b' := by injection hlb'
      rw [← hbb] at hins
      exact hnotins hins
    | true =>
      obtain ⟨e, hef, hpe⟩ := List.any_eq_true.mp hany
      obtain ⟨k, bk⟩ := e
      obtain ⟨hes, hco⟩ := List.mem_filter.mp hef
      simp only [Bool.and_eq_true, beq_iff_eq] at hpe
      obtain ⟨⟨hk, hdk⟩, hinsk⟩ := hpe
      subst hk
      have hbc : bk = b := lookupBook_unique store hnd k b bk hes hlb
      subst hbc
      have hins2 : insultSuccess env k bk = true := hinsk
      unfold insultSuccess at hins2
      cases hg : env.genMsg bk with
      | none =>
        rw [hg] at hins2
        exact absurd hins2 (by simp)
      | some msg =>
        rw [hg] at hins2
        simp only [Bool.and_eq_true] at hins2
        exact ⟨msg, rfl, hins2.1⟩

/-- C1 witness: on the one-record store with deadline 100, a sweep at
instant 200 reports count 1, matching the overdue formula. -/
theorem sweep_overdue_report_witness :
    (1 : Nat) = wStore.countP (fun e => decide (e.2.deadline < 200) &&
      sweepStatuses.contains e.2.status) := by
  have h := sweep_overdue_report sweepStatuses demoEnvOk "" "" 200 wStore
    [("b1", { wBook with status := "insulted" })] 1 (by decide) rfl
  exact h.1

/-- C5: an authorized sweep never aborts because one record's message
generation or push failed: it still returns an ok result, the full overdue
count, and leaves the failing record's stored state unchanged. -/
theorem sweep_skips_failures (statuses : List String) (env : SweepEnv)
    (cronSecret authHeader : String) (now : Int) (store : Store)
    (id : String) (b : Book)
    (hauth : cronSecret = "" ∨ authHeader = "Bearer " ++ cronSecret)
    (hnd : (store.map Prod.fst).Nodup)
    (hl : lookupBook store id = some b)
    (hfail : env.genMsg b = none ∨
      ∃ msg, env.genMsg b = some msg ∧ env.pushOk b.userID msg = false) :
    ∃ (store' : Store) (n : Nat),
      handleCheckDeadlines statuses env cronSecret authHeader now store =
        .ok (store', n) ∧
      lookupBook store' id = some b ∧
      n = store.countP (fun e => decide (e.2.deadline < now) &&
        statuses.contains e.2.status) := by
  have hnauth : ¬ (cronSecret ≠ "" ∧ authHeader ≠ "Bearer " ++ cronSecret) := by
    rcases hauth with h | h
    · exact fun hc => hc.1 h
    · exact fun hc => hc.2 h
  have hins : insultSuccess env id b = false := by
    rcases hfail with hg | ⟨msg, hg, hp⟩
    · simp [insultSuccess, hg]
    · simp [insultSuccess, hg, hp]
  have hrun : handleCheckDeadlines statuses env cronSecret authHeader now
      store = .ok (sweepLoop env now store 0
        (store.filter (fun e => statuses.contains e.2.status))) := by
    unfold handleCheckDeadlines
    rw [if_neg hnauth]
  refine ⟨_, _, hrun, ?_, ?_⟩
  · have hany := sweep_any_false_of store statuses env now id b hnd hl
      (Or.inr hins)
    have hlk := sweepLoop_lookup env now id
      (store.filter (fun e => statuses.contains e.2.status)) store 0
    rw [hany, if_neg Bool.false_ne_true] at hlk
    rw [hlk, hl]
  · rw [sweepLoop_count, List.countP_filter, Nat.zero_add]

/-- C5 witness: with oracles that always fail generation, the sweep over the
one-record overdue store still returns ok with count 1 and the record
unchanged. -/
theorem sweep_skips_failures_witness :
    ∃ (store' : Store) (n : Nat),
      handleCheckDeadlines sweepStatuses demoEnvFail "" "" 200 wStore =
        .ok (store', n) ∧
      lookupBook store' "b1" = some wBook ∧
      n = wStore.countP (fun e => decide (e.2.deadline < 200) &&
        sweepStatuses.contains e.2.status) :=
  sweep_skips_failures sweepStatuses demoEnvFail "" "" 200 wStore "b1" wBook
    (Or.inl rfl) (by decide) rfl (Or.inl rfl)

/-- C8: the sweep only ever rewrites the status field: every record present
after a sweep run comes from a record stored under the same id before the
run with identical title, author, deadline, insult level, owner id and
record id (its status either unchanged or "insulted"), and the sweep neither
creates nor deletes records. -/
theorem sweep_frame (statuses : List String) (env : SweepEnv)
    (cronSecret authHeader : String) (now : Int) (store store' : Store)
    (n : Nat)
    (hrun : handleCheckDeadlines statuses env cronSecret authHeader now store =
      .ok (store', n)) :
    (∀ (id : String) (b' : Book), lookupBook store' id = some b' →
      ∃ b, lookupBook store id = some b ∧
        b'.title = b.title ∧ b'.author = b.author ∧
        b'.deadline = b.deadline ∧ b'.insultLevel = b.insultLevel ∧
        b'.userID = b.userID ∧ b'.bookID = b.bookID ∧
        (b'.status = b.status ∨ b'.status = "insulted")) ∧
    (∀ id : String, (lookupBook store' id).isSome =
      (lookupBook store id).isSome) := by
  have hok := handleCheckDeadlines_ok statuses env cronSecret authHeader
    now store store' n hrun
  have hst : store' = (sweepLoop env now store 0
      (store.filter (fun e => statuses.contains e.2.status))).1 := by
    rw [hok]
  constructor
  · intro id b' hlb'
    have hlk := sweepLoop_lookup env now id
      (store.filter (fun e => statuses.contains e.2.status)) store 0
    rw [← hst] at hlk
    rw [hlk] at hlb'
    split at hlb'
    · cases hlb0 : lookupBook store id with
      | none =>
        rw [hlb0] at hlb'
        exact absurd hlb' (by simp)
      | some b =>
        rw [hlb0] at hlb'
        have hb' : b' = { b with status := "insulted" } := by
          have := Option.some.inj hlb'
          rw [← this]
        refine ⟨b, rfl, ?_⟩
        rw [hb']
        exact ⟨rfl, rfl, rfl, rfl, rfl, rfl, Or.inr rfl⟩
    · exact ⟨b', hlb', rfl, rfl, rfl, rfl, rfl, rfl, Or.inl rfl⟩
  · intro id
    have hlk := sweepLoop_lookup env now id
      (store.filter (fun e => statuses.contains e.2.status)) store 0
    rw [← hst] at hlk
    rw [hlk]
    split
    · cases lookupBook store id <;> rfl
    · rfl

/-- C8 witness: after the successful sweep over the one-record store, the
record under "b1" is still present. -/
theorem sweep_frame_witness :
    (lookupBook [("b1", { wBook with status := "insulted" })] "b1").isSome =
      (lookupBook wStore "b1").isSome :=
  (sweep_frame sweepStatuses demoEnvOk "" "" 200 wStore
    [("b1", { wBook with status := "insulted" })] 1 rfl).2 "b1"


/-- C10: the static-pool generator is total: for every random draw and every
book it returns ok with some message from the literal pool (the reduced
index is always in range), so as the sweep's generation oracle it never
produces the skip branch. -/
theorem generateInsult_total (r : Nat) (book : Book) :
    ∃ msg, generateInsult r book = .ok msg ∧ msg ∈ insultMessages book ∧
      staticGenMsg r book = some msg := by
  refine ⟨(insultMessages book).getD (r % (insultMessages book).length) "",
    rfl, ?_, rfl⟩
  have hlt : r % (insultMessages book).length <
      (insultMessages book).length := by
    have hlen : (insultMessages book).length = 94 := rfl
    rw [hlen]
    exact Nat.mod_lt _ (by norm_num)
  rw [List.getD_eq_getElem?_getD, List.getElem?_eq_getElem hlt]
  exact List.getElem_mem hlt

/-- C6 counterexample: when the Gemini call fails, the part_000
`generateInsult` propagates the error instead of returning the fixed
fallback message, contradicting the claim that the fallback is used when
the call fails. -/
theorem gemini_fallback_counterexample :
    generateInsultGemini "key" geminiFailCall wBook =
      .error "Gemini API error: 500" ∧
    generateInsultGemini "key" geminiFailCall wBook ≠ .ok geminiFallback := by
  constructor
  · rfl
  · intro h
    rw [show generateInsultGemini "key" geminiFailCall wBook =
      .error "Gemini API error: 500" from rfl] at h
    exact absurd h (by simp)

/-- C6 amended: with an API key configured, the message is the first part
of the first candidate of the decoded response; the fixed fallback is used
only when the decoded response has no candidate or the first candidate has
no part; when the call fails (transport error, non-200 status or decode
failure) the generator returns that error, and the sweep then skips the
record. -/
theorem gemini_first_candidate (apiKey : String)
    (call : String → Except String GeminiResponse) (book : Book)
    (hkey : apiKey ≠ "") :
    (∀ e, call (geminiPrompt book) = .error e →
      generateInsultGemini apiKey call book = .error e) ∧
    (∀ resp, call (geminiPrompt book) = .ok resp → resp.candidates = [] →
      generateInsultGemini apiKey call book = .ok geminiFallback) ∧
    (∀ resp c cs, call (geminiPrompt book) = .ok resp →
      resp.candidates = c :: cs → c.parts = [] →
      generateInsultGemini apiKey call book = .ok geminiFallback) ∧
    (∀ resp c cs t ts, call (geminiPrompt book) = .ok resp →
      resp.candidates = c :: cs → c.parts = t :: ts →
      generateInsultGemini apiKey call book = .ok t) := by
  refine ⟨?_, ?_, ?_, ?_⟩
  · intro e hc
    unfold generateInsultGemini
    rw [if_neg hkey, hc]
  · intro resp hc hcand
    unfold generateInsultGemini
    rw [if_neg hkey, hc]
    dsimp only
    rw [hcand]
  · intro resp c cs hc hcand hparts
    unfold generateInsultGemini
    rw [if_neg hkey, hc]
    dsimp only
    rw [hcand]
    dsimp only
    rw [hparts]
  · intro resp c cs t ts hc hcand hparts
    unfold generateInsultGemini
    rw [if_neg hkey, hc]
    dsimp only
    rw [hcand]
    dsimp only
    rw [hparts]

/-- C6 witness: a one-candidate response yields its first part; an empty
response yields the fixed fallback. -/
theorem gemini_first_candidate_witness :
    generateInsultGemini "key" geminiOkCall wBook = .ok "さっさと読みなさい。" ∧
    generateInsultGemini "key" geminiEmptyCall wBook = .ok geminiFallback := by
  constructor
  · exact (gemini_first_candidate "key" geminiOkCall wBook (by decide)).2.2.2
      { candidates := [{ parts := ["さっさと読みなさい。"] }] }
      { parts := ["さっさと読みなさい。"] } [] "さっさと読みなさい。" [] rfl rfl rfl
  · exact (gemini_first_candidate "key" geminiEmptyCall wBook (by decide)).2.1
      { candidates := [] } rfl rfl

/-- C7 counterexample: a create request with insult level 0 (outside the
data model's 1–5 range) is accepted and persisted unvalidated, so the
stored record violates the data-model invariant. -/
theorem bookWF_counterexample :
    (handleRegisterBook [] c7Req "id1").2 = .ok "id1" ∧
    lookupBook (handleRegisterBook [] c7Req "id1").1 "id1" =
      some { c7Req with status := "unread", bookID := "id1" } ∧
    ¬ bookWF { c7Req with status := "unread", bookID := "id1" } := by
  refine ⟨rfl, rfl, by decide⟩

/-- C7 amended: create and update perform no validation of status or insult
level (create only defaults an absent status to "unread"); the data-model
invariant holds after them provided the request already satisfies it: insult
level in 1–5 and status in the enumeration (or absent, for create). -/
theorem bookWF_preserved (store : Store) (req : Book) (freshId : String)
    (hil : 1 ≤ req.insultLevel ∧ req.insultLevel ≤ 5)
    (hstore : ∀ e ∈ store, bookWF e.2) :
    ((req.status = "" ∨ req.status ∈ statusEnum) →
      ∀ e ∈ (handleRegisterBook store req freshId).1, bookWF e.2) ∧
    (req.status ∈ statusEnum →
      ∀ e ∈ (handleUpdateBook store req).1, bookWF e.2) := by
  constructor
  · intro hst e he
    unfold handleRegisterBook at he
    by_cases hval : req.title = "" ∨ req.author = "" ∨ req.deadline = 0 ∨
        req.userID = ""
    · rw [if_pos hval] at he
      exact hstore e he
    · rw [if_neg hval] at he
      dsimp only at he
      rcases mem_docSet _ _ _ _ he with hmem | heq
      · exact hstore e hmem
      · rw [heq]
        refine ⟨?_, hil.1, hil.2⟩
        rcases hst with h | h
        · rw [if_pos h]
          show "unread" ∈ statusEnum
          decide
        · by_cases hss : req.status = ""
          · rw [if_pos hss]
            show "unread" ∈ statusEnum
            decide
          · rw [if_neg hss]
            exact h
  · intro hst e he
    unfold handleUpdateBook at he
    by_cases hval : req.bookID = "" ∨ req.userID = ""
    · rw [if_pos hval] at he
      exact hstore e he
    · rw [if_neg hval] at he
      cases hlk : lookupBook store req.bookID with
      | none =>
        rw [hlk] at he
        dsimp only at he
        exact hstore e he
      | some ex =>
        rw [hlk] at he
        dsimp only at he
        by_cases hown : ex.userID ≠ req.userID
        · rw [if_pos hown] at he
          exact hstore e he
        · rw [if_neg hown] at he
          rcases mem_docSet _ _ _ _ he with hmem | heq
          · exact hstore e hmem
          · rw [heq]
            exact ⟨hst, hil.1, hil.2⟩

/-- C7-amended witness: registering the well-formed sample request on the
empty store yields a store whose single record satisfies the data-model
invariant. -/
theorem bookWF_preserved_witness :
    bookWF ({ wBook with status := "unread", bookID := "id1" } : Book) :=
  (bookWF_preserved [] wBook "id1" ⟨by decide, by decide⟩
      (fun e he => absurd he (List.not_mem_nil e))).1
    (Or.inr (by decide))
    ("id1", { wBook with status := "unread", bookID := "id1" })
    (by decide)


end Tundoku
